import Mathlib

/-!
Verification of the yt-music-manager-backend extraction gateway.

The repository is a small Express HTTP backend with several historical
variants of the same route handlers:
  * `src/server.js`          - consolidated yt-dlp variant (no OAuth)
  * `src/unnamed/part_000`   - yt-dlp variant with the YouTube-API OAuth
                               fallback and array-shape classification
  * `src/unnamed/part_001`   - old ytdl-core variant
  * `src/unnamed/part_002`   - yt-dlp variant with newline-delimited parsing

Handlers operate on dynamic JSON values produced by the external extractor.
We embed JavaScript values as `JVal`, JavaScript truthiness as `truthy`,
property access (with `TypeError` on `null`/`undefined` bases) as `getFieldE`,
and `JSON.parse` as a fuel-bounded recursive-descent parser over the JSON
fragment the gateway exchanges (strings, integers, booleans, null, arrays,
objects).  Numbers are embedded as `Int`: none of the verified properties
depend on float-specific behaviour.
-/

namespace YTMusic

/-- A JavaScript/JSON value.  `Option JVal` is used wherever `undefined`
is possible (an `undefined` value is `none`). -/
inductive JVal where
  | null : JVal
  | bool : Bool → JVal
  | num : Int → JVal
  | str : String → JVal
  | arr : List JVal → JVal
  | obj : List (String × JVal) → JVal

/-- Property lookup `v[k]` on an arbitrary value, `none` meaning `undefined`.
Only objects have (model-visible) own properties; lookup on other non-null
primitives yields `undefined` in JS. -/
def JVal.getField : JVal → String → Option JVal
  | .obj fs, k => fs.lookup k
  | _, _ => none

/-- `Array.isArray(v)`. -/
def JVal.isArr : JVal → Bool
  | .arr _ => true
  | _ => false

/-- JavaScript truthiness of a defined value: `null`, `false`, `0` and the
empty string are falsy; arrays and objects are always truthy. -/
def truthy : JVal → Bool
  | .null => false
  | .bool b => b
  | .num n => n ≠ 0
  | .str s => s ≠ ""
  | .arr _ => true
  | .obj _ => true

/-- Truthiness of a possibly-`undefined` value (`undefined` is falsy). -/
def truthyOpt : Option JVal → Bool
  | none => false
  | some v => truthy v

/-- JS `a || b` where both operands may be `undefined`: yields `a` when `a`
is truthy, otherwise `b` (which may itself be `undefined`). -/
def jsOr (a b : Option JVal) : Option JVal :=
  match a with
  | some v => if truthy v then some v else b
  | none => b

/-- JS `a || b` with a defined right operand, producing a defined value. -/
def jsOrV (a : Option JVal) (b : JVal) : JVal :=
  match a with
  | some v => if truthy v then v else b
  | none => b

/-- JS `a || b` on optional strings with a string default (used for typed
API-response fields where absence plays the role of `undefined` and the
empty string is falsy). -/
def jsOrStr (a : Option String) (b : String) : String :=
  match a with
  | some s => if s = "" then b else s
  | none => b

/-- Builds the serialized form of a JS object literal: `res.json` runs
`JSON.stringify`, which drops every key whose value is `undefined`. -/
def mkJson (fs : List (String × Option JVal)) : List (String × JVal) :=
  fs.filterMap (fun kv => kv.2.map (fun v => (kv.1, v)))

/-! ### A model of `JSON.parse`

Fuel-bounded recursive descent over the JSON fragment the gateway exchanges
(no float or exponent literals, simple string escapes).  `JSON.parse` is
strict: after the single top-level value only whitespace may remain. -/

/-- Skip JSON whitespace. -/
def skipWs : List Char → List Char
  | c :: cs => if c = ' ' ∨ c = '\n' ∨ c = '\t' ∨ c = '\r' then skipWs cs else c :: cs
  | [] => []

/-- Parse the body of a string literal after the opening quote, handling the
simple escapes; returns the string and the input after the closing quote. -/
def parseStrLit : List Char → Option (String × List Char)
  | [] => none
  | c :: cs =>
    if c = '"' then some ("", cs)
    else if c = '\\' then
      match cs with
      | [] => none
      | e :: cs2 =>
        let ec : Option Char :=
          if e = '"' then some '"'
          else if e = '\\' then some '\\'
          else if e = '/' then some '/'
          else if e = 'n' then some '\n'
          else if e = 't' then some '\t'
          else if e = 'r' then some '\r'
          else none
        match ec with
        | none => none
        | some d =>
          match parseStrLit cs2 with
          | some (s, rest) => some (⟨d :: s.data⟩, rest)
          | none => none
    else
      match parseStrLit cs with
      | some (s, rest) => some (⟨c :: s.data⟩, rest)
      | none => none

/-- Parse a nonempty run of decimal digits into a natural number. -/
def parseDigits : List Char → Option (Nat × List Char)
  | c :: cs =>
    if c.isDigit then
      match parseDigits cs with
      | some (n, rest) => some (10 ^ (cs.length - rest.length) * (c.toNat - 48) + n, rest)
      | none => some (c.toNat - 48, cs)
    else none
  | [] => none

mutual

/-- Parse one JSON value (fuel-bounded). -/
def parseVal : Nat → List Char → Option (JVal × List Char)
  | 0, _ => none
  | fuel + 1, cs =>
    match skipWs cs with
    | [] => none
    | c :: cs1 =>
      if c = '{' then
        match skipWs cs1 with
        | '}' :: rest => some (.obj [], rest)
        | cs2 => parseMembers fuel cs2
      else if c = '[' then
        match skipWs cs1 with
        | ']' :: rest => some (.arr [], rest)
        | cs2 => parseElems fuel cs2
      else if c = '"' then
        match parseStrLit cs1 with
        | some (s, rest) => some (.str s, rest)
        | none => none
      else if c = 't' then
        match cs1 with
        | 'r' :: 'u' :: 'e' :: rest => some (.bool true, rest)
        | _ => none
      else if c = 'f' then
        match cs1 with
        | 'a' :: 'l' :: 's' :: 'e' :: rest => some (.bool false, rest)
        | _ => none
      else if c = 'n' then
        match cs1 with
        | 'u' :: 'l' :: 'l' :: rest => some (.null, rest)
        | _ => none
      else if c = '-' then
        match parseDigits cs1 with
        | some (n, rest) => some (.num (-(n : Int)), rest)
        | none => none
      else if c.isDigit then
        match parseDigits (c :: cs1) with
        | some (n, rest) => some (.num (n : Int), rest)
        | none => none
      else none

/-- Parse the members of an object after `{` (first key expected next). -/
def parseMembers : Nat → List Char → Option (JVal × List Char)
  | 0, _ => none
  | fuel + 1, cs =>
    match skipWs cs with
    | '"' :: cs1 =>
      match parseStrLit cs1 with
      | some (k, cs2) =>
        match skipWs cs2 with
        | ':' :: cs3 =>
          match parseVal fuel cs3 with
          | some (v, cs4) =>
            match skipWs cs4 with
            | ',' :: cs5 =>
              match parseMembers fuel cs5 with
              | some (.obj fs, rest) => some (.obj ((k, v) :: fs), rest)
              | _ => none
            | '}' :: cs5 => some (.obj [(k, v)], cs5)
            | _ => none
          | none => none
        | _ => none
      | none => none
    | _ => none

/-- Parse the elements of an array after `[` (first element expected next). -/
def parseElems : Nat → List Char → Option (JVal × List Char)
  | 0, _ => none
  | fuel + 1, cs =>
    match parseVal fuel cs with
    | some (v, cs1) =>
      match skipWs cs1 with
      | ',' :: cs2 =>
        match parseElems fuel cs2 with
        | some (.arr vs, rest) => some (.arr (v :: vs), rest)
        | _ => none
      | ']' :: cs2 => some (.arr [v], cs2)
      | _ => none
    | none => none

end

/-- `JSON.parse`: one value, then only trailing whitespace.  A `none` result
models `JSON.parse` throwing a `SyntaxError`. -/
def jsonParse (s : String) : Option JVal :=
  match parseVal (2 * s.length + 4) s.data with
  | some (v, rest) =>
    match skipWs rest with
    | [] => some v
    | _ => none
  | none => none

/-! ### Runtime errors and property access -/

/-- An exception as observed by a handler's `catch` block.
`ext` is a rejection of the extractor call (`ytDlp.getVideoInfo` /
`execStream`) carrying the tool's error message; `syntaxErr` models
`JSON.parse` throwing; `typeErr` models a `TypeError` (property access on
`null`/`undefined`, or calling a non-function). -/
inductive JsErr where
  | ext (msg : String)
  | syntaxErr
  | typeErr

/-- `error.message` as placed into 500 response bodies.  For runtime
`SyntaxError`/`TypeError`s the concrete text is engine-specific; the
placeholder never matters to any verified property. -/
def JsErr.message : JsErr → JVal
  | .ext m => .str m
  | .syntaxErr => .str "SyntaxError"
  | .typeErr => .str "TypeError"

/-- The value delivered by the yt-dlp wrapper: either a raw stdout string or
an already-parsed object (the code guards with `typeof metadata === 'string'`). -/
inductive MetaIn where
  | raw (s : String)
  | parsed (v : JVal)

/-- `typeof metadata === 'string' ? JSON.parse(metadata) : metadata`. -/
def parseMeta : MetaIn → Except JsErr JVal
  | .raw s =>
    match jsonParse s with
    | some v => .ok v
    | none => .error .syntaxErr
  | .parsed v => .ok v

/-- Property access `v.k` on a defined value: a `TypeError` when the base is
`null`, otherwise the (possibly `undefined`) property value. -/
def getFieldE : JVal → String → Except JsErr (Option JVal)
  | .null, _ => .error .typeErr
  | v, k => .ok (v.getField k)

/-- Property access on a possibly-`undefined` base (`undefined.k` is also a
`TypeError`). -/
def accessFieldE : Option JVal → String → Except JsErr (Option JVal)
  | none, _ => .error .typeErr
  | some v, k => getFieldE v k

/-- Calling `.map` on a value: a `TypeError` unless it is an array. -/
def asArrayE : JVal → Except JsErr (List JVal)
  | .arr xs => .ok xs
  | _ => .error .typeErr

/-- `v.length` (arrays, strings, or an own `length` property of an object). -/
def jsLength : JVal → Option JVal
  | .arr xs => some (.num xs.length)
  | .str s => some (.num s.length)
  | .obj fs => fs.lookup "length"
  | _ => none

/-- JS `x > 0` restricted to the numeric case; in this model any
non-numeric operand compares false (the gateway only reaches it with
`undefined` or a number). -/
def jsGtZero : Option JVal → Bool
  | some (.num n) => 0 < n
  | _ => false

/-- `v[0]`: first array element, first character of a string, or the own
`"0"` property of an object; `none` is `undefined`. -/
def jsIndexZero : JVal → Option JVal
  | .arr (x :: _) => some x
  | .arr [] => none
  | .str s => if s = "" then none else some (.str (String.singleton (s.get 0)))
  | .obj fs => fs.lookup "0"
  | _ => none

/-- `v[v.length - 1]`: last array element, last character of a string, or the
corresponding own property of an object; `none` is `undefined`. -/
def jsIndexLast : JVal → Option JVal
  | .arr xs => xs.getLast?
  | .str s => if s = "" then none else some (.str (String.singleton s.back))
  | .obj fs =>
    match fs.lookup "length" with
    | some (.num n) => fs.lookup (toString (n - 1))
    | _ => none
  | _ => none

/-- Truthiness of a query parameter (`!playlistId`): absent or empty is
falsy. -/
def truthyStrOpt : Option String → Bool
  | some s => s ≠ ""
  | none => false

/-- `p` is a prefix of `s` (the model of `String.prototype.startsWith`). -/
def strStartsWith (s p : String) : Bool :=
  p.data.isPrefixOf s.data

/-- `authHeader && authHeader.startsWith('Bearer ')`. -/
def hasBearer : Option String → Bool
  | some s => strStartsWith s "Bearer "
  | none => false

/-- The canonical watch URL built by every video endpoint. -/
def watchUrl (vid : String) : String :=
  "https://www.youtube.com/watch?v=" ++ vid

/-- The JSON body and status of a completed (non-streaming) response,
together with which outbound calls the handler made before replying. -/
structure HOut where
  status : Nat
  body : List (String × JVal)
  extractorCalled : Bool
  apiCalled : Bool

/-! ### Playlist entry normalization (src/server.js 103-112, part_000 207-216)

`entries.map(video => { if (!video) return null; return {...}; })` followed by
`.filter(v => v !== null)`. -/

/-- The guarded index in
`video.thumbnails && video.thumbnails.length > 0 ? video.thumbnails[0].url : ''`:
when the guard holds, `thumbnails[0].url` (a `TypeError` when `thumbnails[0]`
is `null` or `undefined`), otherwise the empty string. -/
def entryThumbTern (v : JVal) : Except JsErr (Option JVal) :=
  match v.getField "thumbnails" with
  | none => .ok (some (.str ""))
  | some tv =>
    if truthy tv ∧ jsGtZero (jsLength tv) then
      match jsIndexZero tv with
      | none => .error .typeErr
      | some .null => .error .typeErr
      | some u => .ok (u.getField "url")
    else .ok (some (.str ""))

/-- `video.thumbnail || (…ternary…) || ''`.  `||` is lazy: the ternary (and
any `TypeError` inside it) is evaluated only when `video.thumbnail` is
falsy. -/
def entryThumbField (v : JVal) : Except JsErr JVal :=
  match v.getField "thumbnail" with
  | some tv =>
    if truthy tv then .ok tv
    else do
      let tern ← entryThumbTern v
      .ok (jsOrV tern (.str ""))
  | none => do
    let tern ← entryThumbTern v
    .ok (jsOrV tern (.str ""))

/-- One step of the entry `map` callback: `null` for a falsy entry, otherwise
the normalized video object.  `id` is passed through without a default (and is
dropped from the serialized object when `undefined`). -/
def mapEntry (v : JVal) : Except JsErr (Option JVal) :=
  if truthy v then do
    let tf ← entryThumbField v
    .ok (some (.obj (mkJson [
      ("id", v.getField "id"),
      ("title", some (jsOrV (v.getField "title") (.str "Unknown"))),
      ("author", some (jsOrV (jsOr (jsOr (v.getField "uploader") (v.getField "channel"))
        (v.getField "uploader_id")) (.str "Unknown"))),
      ("duration", some (jsOrV (v.getField "duration") (.num 0))),
      ("thumbnailUrl", some tf)])))
  else .ok none

/-- `entries.map(...)` with any thrown `TypeError` propagating to the
handler's `catch`. -/
def mapEntries : List JVal → Except JsErr (List (Option JVal))
  | [] => .ok []
  | v :: rest => do
    let e ← mapEntry v
    let es ← mapEntries rest
    .ok (e :: es)

/-- `.filter(v => v !== null)`. -/
def filterNonNull (l : List (Option JVal)) : List JVal :=
  l.filterMap id

/-! ### Array-shape classification (part_000 117-126 and 194-204)

```
let playlistData = rawData; let entries = [];
if (Array.isArray(rawData)) {
  playlistData = rawData.find(item => item._type === 'playlist') || rawData[rawData.length - 1];
  entries = rawData.filter(item => item._type === 'url' || item._type === 'video');
} else {
  entries = rawData.entries || [];
}
``` -/

/-- `item._type === tag` (strict equality against a string literal). -/
def isTypeTag (v : JVal) (tag : String) : Bool :=
  match v.getField "_type" with
  | some (.str s) => s = tag
  | _ => false

/-- `rawData.find(item => item._type === 'playlist')`: stops at the first
match; accessing `_type` on a `null` element before a match throws. -/
def findPlaylistDoc : List JVal → Except JsErr (Option JVal)
  | [] => .ok none
  | v :: rest =>
    match v with
    | .null => .error .typeErr
    | _ => if isTypeTag v "playlist" then .ok (some v) else findPlaylistDoc rest

/-- `rawData.filter(item => item._type === 'url' || item._type === 'video')`:
the predicate runs on every element, so any `null` element throws. -/
def filterTypedEntries : List JVal → Except JsErr (List JVal)
  | [] => .ok []
  | v :: rest =>
    match v with
    | .null => .error .typeErr
    | _ => do
      let es ← filterTypedEntries rest
      .ok (if isTypeTag v "url" || isTypeTag v "video" then v :: es else es)

/-- The classification block: yields the (possibly `undefined`) playlist-level
document and the value bound to `entries`. -/
def classifyPayload (raw : JVal) : Except JsErr (Option JVal × JVal) :=
  match raw with
  | .arr xs => do
    let doc ← findPlaylistDoc xs
    let es ← filterTypedEntries xs
    .ok (jsOr doc xs.getLast?, .arr es)
  | _ => do
    let ef ← getFieldE raw "entries"
    .ok (some raw, jsOrV ef (.arr []))

/-- Lifts the awaited extractor call: a rejected promise becomes the caught
extraction error. -/
def extractOk : Except String MetaIn → Except JsErr MetaIn
  | .error m => .error (.ext m)
  | .ok v => .ok v

/-- A 400 response `res.status(400).json({ error: msg })` for a missing
query parameter; no outbound call has been made. -/
def badRequest (msg : String) : HOut :=
  { status := 400, body := [("error", .str msg)], extractorCalled := false, apiCalled := false }

/-- A 500 response `res.status(500).json({ error: errText, message: error.message })`. -/
def serverError (errText : String) (e : JsErr) (apiCalledFlag : Bool) : HOut :=
  { status := 500, body := [("error", .str errText), ("message", e.message)],
    extractorCalled := true, apiCalled := apiCalledFlag }

/-! ### GET /api/playlist-videos -/

/-- The `try` body of `src/server.js` 93-119 once the extractor resolved:
parse, take `playlistData.entries || []`, normalize, reply 200. -/
def playlistVideosCoreSrv (pid : String) (m : MetaIn) : Except JsErr HOut := do
  let playlistData ← parseMeta m
  let ef ← getFieldE playlistData "entries"
  let entries ← asArrayE (jsOrV ef (.arr []))
  let mapped ← mapEntries entries
  let videos := filterNonNull mapped
  let titleF ← getFieldE playlistData "title"
  .ok { status := 200,
        body := [("playlistId", .str pid),
                 ("title", jsOrV titleF (.str "")),
                 ("itemCount", .num videos.length),
                 ("videos", .arr videos)],
        extractorCalled := true, apiCalled := false }

/-- `src/server.js` `app.get('/api/playlist-videos')`. -/
def playlistVideosSrv (playlistId : Option String) (ext : Except String MetaIn) : HOut :=
  if truthyStrOpt playlistId then
    match (do
      let m ← extractOk ext
      playlistVideosCoreSrv (playlistId.getD "") m : Except JsErr HOut) with
    | .ok out => out
    | .error e => serverError "Failed to fetch playlist videos" e false
  else badRequest "playlistId parameter is required"

/-- The `try` body of part_000 186-223: like the server.js variant but with
the array-shape classification before normalization. -/
def playlistVideosCoreP0 (pid : String) (m : MetaIn) : Except JsErr HOut := do
  let rawData ← parseMeta m
  let (playlistData, entriesVal) ← classifyPayload rawData
  let entries ← asArrayE entriesVal
  let mapped ← mapEntries entries
  let videos := filterNonNull mapped
  let titleF ← accessFieldE playlistData "title"
  .ok { status := 200,
        body := [("playlistId", .str pid),
                 ("title", jsOrV titleF (.str "")),
                 ("itemCount", .num videos.length),
                 ("videos", .arr videos)],
        extractorCalled := true, apiCalled := false }

/-- part_000 `app.get('/api/playlist-videos')`. -/
def playlistVideosP0 (playlistId : Option String) (ext : Except String MetaIn) : HOut :=
  if truthyStrOpt playlistId then
    match (do
      let m ← extractOk ext
      playlistVideosCoreP0 (playlistId.getD "") m : Except JsErr HOut) with
    | .ok out => out
    | .error e => serverError "Failed to fetch playlist videos" e false
  else badRequest "playlistId parameter is required"

/-- part_002's per-line entry object (no `uploader_id`, no `thumbnails[]`
fallback); the surrounding `try` turns any per-line throw into `null`. -/
def p2BuildEntry (v : JVal) : Except JsErr (List (String × JVal)) := do
  let idF ← getFieldE v "id"
  let titleF ← getFieldE v "title"
  let upl ← getFieldE v "uploader"
  let ch ← getFieldE v "channel"
  let dur ← getFieldE v "duration"
  let th ← getFieldE v "thumbnail"
  .ok (mkJson [
    ("id", idF),
    ("title", some (jsOrV titleF (.str "Unknown"))),
    ("author", some (jsOrV (jsOr upl ch) (.str "Unknown"))),
    ("duration", some (jsOrV dur (.num 0))),
    ("thumbnailUrl", some (jsOrV th (.str "")))])

/-- part_002 76-95 per-line callback: `JSON.parse(line)` and the object
construction inside `try`, `null` on any throw. -/
def p2LineVideo (line : String) : Option JVal :=
  match jsonParse line with
  | none => none
  | some v =>
    match p2BuildEntry v with
    | .ok fs => some (.obj fs)
    | .error _ => none

/-- The whitespace stripped by `line.trim()` (the ASCII subset; the payload
lines at issue are ASCII). -/
def isWsChar (c : Char) : Bool :=
  c = ' ' ∨ c = '\n' ∨ c = '\t' ∨ c = '\r'

/-- `line.trim()` is blank: nothing but whitespace remains. -/
def isBlankLine (l : String) : Bool :=
  l.data.all isWsChar

/-- `metadata.split('\n')` over the character list. -/
def splitNl : List Char → List (List Char)
  | [] => [[]]
  | c :: cs =>
    let r := splitNl cs
    if c = '\n' then [] :: r
    else
      match r with
      | h :: t => (c :: h) :: t
      | [] => [[c]]

/-- `metadata.split('\n').filter(line => line.trim())`. -/
def nonBlankLines (s : String) : List String :=
  ((splitNl s.data).map (fun cs => (⟨cs⟩ : String))).filter (fun l => isBlankLine l = false)

/-- part_002 `app.get('/api/playlist-videos')`: the wrapper returns the raw
stdout string here; the handler splits it into nonblank lines, drops the
first, and maps the rest. -/
def playlistVideosP2 (playlistId : Option String) (ext : Except String String) : HOut :=
  if truthyStrOpt playlistId then
    match ext with
    | .error m => serverError "Failed to fetch playlist videos" (.ext m) false
    | .ok s =>
      let lines := nonBlankLines s
      let videos := filterNonNull ((lines.drop 1).map p2LineVideo)
      { status := 200,
        body := [("playlistId", .str (playlistId.getD "")),
                 ("title", .str ""),
                 ("itemCount", .num videos.length),
                 ("videos", .arr videos)],
        extractorCalled := true, apiCalled := false }
  else badRequest "playlistId parameter is required"

/-! ### GET /api/playlist-info -/

/-- `playlistData.thumbnails && playlistData.thumbnails.length > 0 ?
playlistData.thumbnails[playlistData.thumbnails.length - 1].url : null || ''`.
The ternary binds tighter than its else-operand `null || ''`, which is
always `''`. -/
def playlistThumb (playlistData : Option JVal) : Except JsErr JVal := do
  let t ← accessFieldE playlistData "thumbnails"
  match t with
  | none => .ok (.str "")
  | some tv =>
    if truthy tv ∧ jsGtZero (jsLength tv) then
      match jsIndexLast tv with
      | none => .error .typeErr
      | some .null => .error .typeErr
      | some u => .ok (jsOrV (u.getField "url") (.str ""))
    else .ok (.str "")

/-- The `try` body of `src/server.js` 58-73 once the extractor resolved.
`itemCount` is `playlist_count || (entries ? entries.length : 0)`; note the
whole field is dropped when that expression is `undefined`. -/
def playlistInfoCoreSrv (pid : String) (m : MetaIn) : Except JsErr HOut := do
  let playlistData ← parseMeta m
  let titleF ← getFieldE playlistData "title"
  let descF ← getFieldE playlistData "description"
  let thumb ← playlistThumb (some playlistData)
  let pcount ← getFieldE playlistData "playlist_count"
  let ef ← getFieldE playlistData "entries"
  let ic : Option JVal := jsOr pcount
    (match ef with
     | some ev => if truthy ev then jsLength ev else some (.num 0)
     | none => some (.num 0))
  .ok { status := 200,
        body := mkJson [
          ("id", some (.str pid)),
          ("title", some (jsOrV titleF (.str "Unknown Playlist"))),
          ("description", some (jsOrV descF (.str ""))),
          ("thumbnailUrl", some thumb),
          ("itemCount", ic)],
        extractorCalled := true, apiCalled := false }

/-- `src/server.js` `app.get('/api/playlist-info')`. -/
def playlistInfoSrv (playlistId : Option String) (ext : Except String MetaIn) : HOut :=
  if truthyStrOpt playlistId then
    match (do
      let m ← extractOk ext
      playlistInfoCoreSrv (playlistId.getD "") m : Except JsErr HOut) with
    | .ok out => out
    | .error e => serverError "Failed to fetch playlist info" e false
  else badRequest "playlistId parameter is required"

/-- Typed shape of one item of the YouTube Data API `playlists.list`
response, restricted to the properties part_000 reads.  `descr` is
`snippet.description`, `thumbMediumUrl`/`thumbDefaultUrl` are
`snippet.thumbnails?.medium?.url` / `snippet.thumbnails?.default?.url`
(absent optional chains are `none`), `itemCount` is
`contentDetails.itemCount`. -/
structure ApiPlaylistItem where
  title : String
  descr : Option String
  thumbMediumUrl : Option String
  thumbDefaultUrl : Option String
  itemCount : Int

/-- `response.data.items` of `playlists.list` (the code guards against the
property being absent). -/
structure ApiListResp where
  items : Option (List ApiPlaylistItem)

/-- An error raised by the authenticated API client (message only; the
playlist-info fallback never inspects it). -/
structure ApiErr where
  msg : String

/-- `a?.x || b?.x` on optional strings (empty string falsy). -/
def jsOrStrOpt (a b : Option String) : Option String :=
  match a with
  | some s => if s = "" then b else some s
  | none => b

/-- The 200 body of the part_000 playlist-info API fallback, built from
`response.data.items[0]`. -/
def apiInfoBody (pid : String) (item : ApiPlaylistItem) : List (String × JVal) :=
  [("id", .str pid),
   ("title", .str item.title),
   ("description", .str (jsOrStr item.descr "")),
   ("thumbnailUrl", .str (jsOrStr (jsOrStrOpt item.thumbMediumUrl item.thumbDefaultUrl) "")),
   ("itemCount", .num item.itemCount),
   ("source", .str "youtube-api")]

/-- The part_000 playlist-info success body (113-135): classification, then
`{id, title, description, thumbnailUrl, itemCount: playlist_count || entries.length || 0,
source: 'yt-dlp'}`. -/
def playlistInfoCoreP0 (pid : String) (m : MetaIn) : Except JsErr HOut := do
  let rawData ← parseMeta m
  let (playlistData, entriesVal) ← classifyPayload rawData
  let titleF ← accessFieldE playlistData "title"
  let descF ← accessFieldE playlistData "description"
  let thumb ← playlistThumb playlistData
  let pcount ← accessFieldE playlistData "playlist_count"
  .ok { status := 200,
        body := [
          ("id", .str pid),
          ("title", jsOrV titleF (.str "Unknown Playlist")),
          ("description", jsOrV descF (.str "")),
          ("thumbnailUrl", thumb),
          ("itemCount", jsOrV (jsOr pcount (jsLength entriesVal)) (.num 0)),
          ("source", .str "yt-dlp")],
        extractorCalled := true, apiCalled := false }

/-- The inner `try` of part_000 playlist-info: the awaited extractor call
plus everything through `res.json`; any throw lands in `catch (ytdlpError)`. -/
def ytdlpAttemptInfo (pid : String) (ext : Except String MetaIn) : Except JsErr HOut := do
  let m ← extractOk ext
  playlistInfoCoreP0 pid m

/-- part_000 `app.get('/api/playlist-info')` (103-177): yt-dlp first; on its
failure, with a `Bearer ` header, the authenticated `playlists.list` lookup;
when that also fails or returns no items, `throw ytdlpError` reaches the
outer catch, whose 500 carries the original extraction error's message. -/
def playlistInfoP0 (playlistId : Option String) (authHeader : Option String)
    (ext : Except String MetaIn) (api : Except ApiErr ApiListResp) : HOut :=
  if truthyStrOpt playlistId then
    match ytdlpAttemptInfo (playlistId.getD "") ext with
    | .ok out => out
    | .error e =>
      if hasBearer authHeader then
        match api with
        | .ok resp =>
          match resp.items with
          | some (item :: _) =>
            { status := 200, body := apiInfoBody (playlistId.getD "") item,
              extractorCalled := true, apiCalled := true }
          | _ => serverError "Failed to fetch playlist info" e true
        | .error _ => serverError "Failed to fetch playlist info" e true
      else serverError "Failed to fetch playlist info" e false
  else badRequest "playlistId parameter is required"

/-! ### GET /api/download-info (src/server.js 131-162) -/

/-- The `try` body once `videoId` is present: `title` is passed through with
no default (dropped from the body when the extractor omits it);
`downloadUrl` is the watch URL itself. -/
def downloadInfoCore (vid : String) (m : MetaIn) : Except JsErr HOut := do
  let info ← parseMeta m
  let titleF ← getFieldE info "title"
  let upl ← getFieldE info "uploader"
  let ch ← getFieldE info "channel"
  let dur ← getFieldE info "duration"
  .ok { status := 200,
        body := mkJson [
          ("videoId", some (.str vid)),
          ("title", titleF),
          ("author", some (jsOrV (jsOr upl ch) (.str "Unknown"))),
          ("lengthSeconds", some (jsOrV dur (.num 0))),
          ("downloadUrl", some (.str (watchUrl vid))),
          ("quality", some (.str "best")),
          ("format", some (.str "audio/mp4"))],
        extractorCalled := true, apiCalled := false }

/-- `src/server.js` `app.get('/api/download-info')`. -/
def downloadInfoSrv (videoId : Option String) (ext : Except String MetaIn) : HOut :=
  if truthyStrOpt videoId then
    match (do
      let m ← extractOk ext
      downloadInfoCore (videoId.getD "") m : Except JsErr HOut) with
    | .ok out => out
    | .error e => serverError "Failed to fetch download info" e false
  else badRequest "videoId parameter is required"

/-! ### GET /api/download (src/server.js 165-209)

The streaming endpoint is modeled as the ordered trace of externally visible
actions.  Headers are committed (`res.headersSent` becomes true) by the first
piped data chunk or by any `res.status(...).json(...)`; `res.setHeader` alone
does not commit them. -/

/-- `title.replace(/[^a-z0-9]/gi, '_')` keeps `[a-zA-Z0-9]` and replaces
every other character with an underscore. -/
def isAlnumCI (c : Char) : Bool :=
  ('a' ≤ c ∧ c ≤ 'z') ∨ ('A' ≤ c ∧ c ≤ 'Z') ∨ ('0' ≤ c ∧ c ≤ '9')

/-- `.toLowerCase()` on the replaced string; after replacement only ASCII
remains, where lowercasing is the `A-Z` shift. -/
def lowerChar (c : Char) : Char :=
  if 'A' ≤ c ∧ c ≤ 'Z' then Char.ofNat (c.toNat + 32) else c

/-- `info.title.replace(/[^a-z0-9]/gi, '_').toLowerCase()`. -/
def sanitizeTitle (s : String) : String :=
  ⟨(s.data.map (fun c => if isAlnumCI c then c else '_')).map lowerChar⟩

/-- An externally visible action of the download endpoint. -/
inductive DlAction where
  | setHeader (k v : String)
  | chunk
  | respond (status : Nat) (body : List (String × JVal))
  | terminate

/-- Events delivered by the piped extractor stdout stream. -/
inductive StreamEv where
  | data
  | errEv
  | endEv

def DlAction.isRespond : DlAction → Bool
  | .respond _ _ => true
  | _ => false

/-- The piped stream processed in order: a data chunk commits the headers; the
`'error'` listener replies 500 only behind the `!res.headersSent` guard and
otherwise only terminates the connection. -/
def runStream : Bool → List StreamEv → List DlAction
  | _, [] => []
  | _, .data :: rest => .chunk :: runStream true rest
  | hs, .errEv :: rest =>
    if hs then .terminate :: runStream hs rest
    else .respond 500 [("error", .str "Download failed")] :: runStream true rest
  | hs, .endEv :: rest => runStream hs rest

/-- The awaited metadata lookup and `info.title.replace(...)`: a string title
is required (`.replace` on `undefined`, `null` or a non-string throws). -/
def downloadPrep (ext : Except String MetaIn) : Except JsErr String := do
  let m ← extractOk ext
  let info ← parseMeta m
  let titleF ← getFieldE info "title"
  match titleF with
  | some (.str t) => .ok t
  | _ => .error .typeErr

/-- `src/server.js` `app.get('/api/download')` as an action trace.  Errors
before streaming happen with headers uncommitted, so the guarded outer catch
replies 500; afterwards the stream events govern the trace. -/
def downloadSrv (videoId : Option String) (ext : Except String MetaIn)
    (events : List StreamEv) : List DlAction :=
  if truthyStrOpt videoId then
    match downloadPrep ext with
    | .error e => [.respond 500 [("error", .str "Failed to download"), ("message", e.message)]]
    | .ok t =>
      .setHeader "Content-Disposition" ("attachment; filename=\"" ++ sanitizeTitle t ++ ".m4a\"") ::
      .setHeader "Content-Type" "audio/mp4" ::
      runStream false events
  else [.respond 400 [("error", .str "videoId parameter is required")]]

/-! ### GET /api/user-playlists (part_000 58-100) -/

/-- Typed shape of one `playlists.list` item as read by the user-playlists
mapping: `snippet.title/description`, the optional thumbnail chains,
`contentDetails.itemCount` and `status?.privacyStatus`. -/
structure GUserPlaylist where
  id : String
  title : String
  descr : String
  thumbMediumUrl : Option String
  thumbDefaultUrl : Option String
  itemCount : Int
  privacyStatus : Option String

/-- An error raised by the authenticated API client; `code` is the optional
numeric `error.code` the handler compares against 401. -/
structure UserApiErr where
  code : Option Int
  msg : String

/-- The per-item mapping of part_000 76-83. -/
def userPlaylistBody (p : GUserPlaylist) : JVal :=
  .obj [("id", .str p.id),
        ("title", .str p.title),
        ("description", .str p.descr),
        ("thumbnailUrl", .str (jsOrStr (jsOrStrOpt p.thumbMediumUrl p.thumbDefaultUrl) "")),
        ("itemCount", .num p.itemCount),
        ("privacy", .str (jsOrStr p.privacyStatus "public"))]

/-- part_000 `app.get('/api/user-playlists')`: 401 before any outbound call
when the `Authorization` header is missing or not `Bearer `-prefixed; on an
API rejection, 401 again when `error.code === 401`, else 500. -/
def userPlaylistsP0 (authHeader : Option String)
    (api : Except UserApiErr (List GUserPlaylist)) : HOut :=
  if hasBearer authHeader then
    match api with
    | .ok ps =>
      { status := 200, body := [("playlists", .arr (ps.map userPlaylistBody))],
        extractorCalled := false, apiCalled := true }
    | .error e =>
      if e.code = some 401 then
        { status := 401,
          body := [("error", .str "Invalid or expired token"), ("message", .str "Please sign in again")],
          extractorCalled := false, apiCalled := true }
      else
        { status := 500,
          body := [("error", .str "Failed to fetch user playlists"), ("message", .str e.msg)],
          extractorCalled := false, apiCalled := true }
  else
    { status := 401, body := [("error", .str "Authorization token required")],
      extractorCalled := false, apiCalled := false }

/-! ## Verified properties -/

/-! ### Header-commit discipline of the download stream -/

/-- An action that commits the response headers: the first piped chunk, or
any `res.status(...).json(...)`. -/
def DlAction.commitsHeaders : DlAction → Bool
  | .chunk => true
  | .respond _ _ => true
  | _ => false

/-- After the first header-committing action of a trace, no status/JSON
response is ever emitted. -/
def headersGuard : List DlAction → Bool
  | [] => true
  | a :: rest =>
    if a.commitsHeaders then rest.all (fun x => !x.isRespond) else headersGuard rest

theorem runStream_true_all_no_respond (events : List StreamEv) :
    (runStream true events).all (fun x => !x.isRespond) = true := by
  induction events with
  | nil => rfl
  | cons e rest ih =>
    cases e <;> simp_all [runStream, DlAction.isRespond]

theorem headersGuard_runStream_false (events : List StreamEv) :
    headersGuard (runStream false events) = true := by
  induction events with
  | nil => rfl
  | cons e rest ih =>
    cases e with
    | data =>
      simp [runStream, headersGuard, DlAction.commitsHeaders,
        runStream_true_all_no_respond]
    | errEv =>
      simp [runStream, headersGuard, DlAction.commitsHeaders,
        runStream_true_all_no_respond]
    | endEv => simpa [runStream] using ih

/-- C9: in the /api/download stream operation, once response headers have
been committed no further status code or JSON error body is ever emitted:
every error path of `downloadSrv` (the mid-stream error listener inside
`runStream` and the outer catch) passes the headers-already-sent guard, so
in every reachable trace an error after the headers only terminates the
connection. -/
theorem download_no_response_after_headers (videoId : Option String)
    (ext : Except String MetaIn) (events : List StreamEv) :
    headersGuard (downloadSrv videoId ext events) = true := by
  unfold downloadSrv
  cases htr : truthyStrOpt videoId with
  | false => rfl
  | true =>
    simp only [if_pos rfl]
    cases hprep : downloadPrep ext with
    | error e => rfl
    | ok t =>
      simp [headersGuard, DlAction.commitsHeaders, headersGuard_runStream_false]

/-! ### Filename sanitization -/

/-- A character allowed in the sanitized filename stem: a lowercase letter,
a digit, or an underscore. -/
def isSanitizedChar (c : Char) : Bool :=
  c = '_' ∨ ('a' ≤ c ∧ c ≤ 'z') ∨ ('0' ≤ c ∧ c ≤ '9')

theorem ebind_ok {ε α β : Type} (a : α) (f : α → Except ε β) :
    (Except.ok a >>= f : Except ε β) = f a := rfl

theorem ebind_err {ε α β : Type} (e : ε) (f : α → Except ε β) :
    (Except.error e >>= f : Except ε β) = Except.error e := rfl

theorem getFieldE_ok (v : JVal) (hv : v ≠ JVal.null) (k : String) :
    getFieldE v k = .ok (v.getField k) := by
  cases v <;> first
    | rfl
    | exact absurd rfl hv

theorem toNat_ofNat_valid (n : Nat) (h1 : n < 55296) : (Char.ofNat n).toNat = n := by
  have hv : n.isValidChar := Or.inl h1
  simp only [Char.ofNat, dif_pos hv, Char.ofNatAux, Char.toNat, UInt32.toNat,
    BitVec.toNat_ofNatLt]

theorem lowerChar_sanitized (c : Char) :
    isSanitizedChar (lowerChar (if isAlnumCI c then c else '_')) = true := by
  by_cases hA : isAlnumCI c = true
  · rw [if_pos hA]
    simp only [isAlnumCI, Bool.or_eq_true, decide_eq_true_eq] at hA
    rcases hA with h | h | h
    · have hn : ¬('A' ≤ c ∧ c ≤ 'Z') := by
        rintro ⟨-, h2⟩
        have g1 : (97 : Nat) ≤ c.toNat := h.1
        have g2 : c.toNat ≤ 90 := h2
        omega
      simp only [lowerChar, if_neg hn, isSanitizedChar]
      exact by simp [h]
    · have hlt : c.toNat + 32 < 55296 := by
        have : c.toNat ≤ 90 := h.2
        omega
      have heq := toNat_ofNat_valid (c.toNat + 32) hlt
      have hge : (65 : Nat) ≤ c.toNat := h.1
      have hle : c.toNat ≤ 90 := h.2
      simp only [lowerChar, if_pos h, isSanitizedChar]
      have g1 : 'a' ≤ Char.ofNat (c.toNat + 32) := by
        show (97 : Nat) ≤ (Char.ofNat (c.toNat + 32)).toNat
        omega
      have g2 : Char.ofNat (c.toNat + 32) ≤ 'z' := by
        show (Char.ofNat (c.toNat + 32)).toNat ≤ 122
        omega
      simp [g1, g2]
    · have hn : ¬('A' ≤ c ∧ c ≤ 'Z') := by
        rintro ⟨h1, -⟩
        have g1 : (65 : Nat) ≤ c.toNat := h1
        have g2 : c.toNat ≤ 57 := h.2
        omega
      simp only [lowerChar, if_neg hn, isSanitizedChar]
      exact by simp [h]
  · rw [if_neg hA]
    decide

/-- C4: for every extractor-reported title string, on a successful
/api/download the `Content-Disposition` filename is the title with every
character outside `[a-zA-Z0-9]` replaced by an underscore and the result
lowercased — so the stem before `.m4a` holds only lowercase alphanumerics
and underscores — the `Content-Type` header is `audio/mp4`, and the
sanitization touches only that header: the /api/download-info JSON `title`
field is the extractor's title verbatim. -/
theorem download_filename_sanitization (vid t : String) (hvid : vid ≠ "")
    (ext : Except String MetaIn) (hprep : downloadPrep ext = .ok t)
    (events : List StreamEv) :
    downloadSrv (some vid) ext events =
      .setHeader "Content-Disposition" ("attachment; filename=\"" ++ sanitizeTitle t ++ ".m4a\"") ::
      .setHeader "Content-Type" "audio/mp4" :: runStream false events
  ∧ (∀ c ∈ (sanitizeTitle t).data, isSanitizedChar c = true)
  ∧ (∀ (vid2 : String) (m : MetaIn) (info : JVal) (hout : HOut),
       parseMeta m = .ok info → downloadInfoCore vid2 m = .ok hout →
       hout.body.lookup "title" = info.getField "title") := by
  refine ⟨?_, ?_, ?_⟩
  · simp [downloadSrv, truthyStrOpt, hvid, hprep]
  · intro c hc
    simp only [sanitizeTitle, List.map_map] at hc
    rcases List.mem_map.mp hc with ⟨c0, -, rfl⟩
    exact lowerChar_sanitized c0
  · intro vid2 m info hout hp hok
    unfold downloadInfoCore at hok
    rw [hp] at hok
    by_cases hnull : info = JVal.null
    · subst hnull
      simp [getFieldE, ebind_ok, ebind_err] at hok
    · simp only [getFieldE_ok info hnull, ebind_ok] at hok
      cases hok
      cases hti : info.getField "title" <;>
        simp [mkJson, List.lookup, hti]

theorem download_filename_sanitization_witness :
    downloadSrv (some "abc")
        (Except.ok (.parsed (.obj [("title", .str "Hi There!")]))) [.data]
      = [.setHeader "Content-Disposition" "attachment; filename=\"hi_there_.m4a\"",
         .setHeader "Content-Type" "audio/mp4", .chunk] := by
  have h := download_filename_sanitization "abc" "Hi There!" (by decide)
    (Except.ok (.parsed (.obj [("title", .str "Hi There!")]))) (by rfl) [.data]
  exact h.1.trans (by rfl)

/-! ### The playlist-info extractor-first / API-fallback policy -/

/-- `response.data.items && response.data.items.length > 0` holds for the
fallback lookup's outcome. -/
def apiHasItems : Except ApiErr ApiListResp → Bool
  | .ok r =>
    match r.items with
    | some (_ :: _) => true
    | _ => false
  | .error _ => false

/-- C1: /api/playlist-info (part_000) tries the extractor first — when the
yt-dlp attempt succeeds its response is returned unchanged — and when the
extractor call fails: with a `Bearer ` Authorization header and a fallback
lookup yielding at least one item, the reply is 200 sourced
`"youtube-api"`; with no bearer header, or with the fallback failing or
returning zero items, the reply is a 500 whose `message` is exactly the
original extractor error's message. -/
theorem playlist_info_extractor_first_fallback (pid : String) (hpid : pid ≠ "")
    (authHeader : Option String) (ext : Except String MetaIn)
    (api : Except ApiErr ApiListResp) :
    (∀ hout, ytdlpAttemptInfo pid ext = .ok hout →
       playlistInfoP0 (some pid) authHeader ext api = hout)
  ∧ (∀ m, ext = .error m →
      ((hasBearer authHeader = false →
          playlistInfoP0 (some pid) authHeader ext api =
            serverError "Failed to fetch playlist info" (.ext m) false)
      ∧ (hasBearer authHeader = true → apiHasItems api = true →
          (playlistInfoP0 (some pid) authHeader ext api).status = 200 ∧
          (playlistInfoP0 (some pid) authHeader ext api).body.lookup "source"
            = some (.str "youtube-api"))
      ∧ (hasBearer authHeader = true → apiHasItems api = false →
          playlistInfoP0 (some pid) authHeader ext api =
            serverError "Failed to fetch playlist info" (.ext m) true))) := by
  constructor
  · intro hout h
    simp [playlistInfoP0, truthyStrOpt, hpid, h]
  · intro m hm
    subst hm
    have hred : ytdlpAttemptInfo pid (Except.error m) = .error (.ext m) := rfl
    refine ⟨?_, ?_, ?_⟩
    · intro hb
      simp [playlistInfoP0, truthyStrOpt, hpid, hred, hb]
    · intro hb hapi
      cases api with
      | error e => simp [apiHasItems] at hapi
      | ok r =>
        cases hitems : r.items with
        | none => simp [apiHasItems, hitems] at hapi
        | some l =>
          cases l with
          | nil => simp [apiHasItems, hitems] at hapi
          | cons item rest =>
            simp [playlistInfoP0, truthyStrOpt, hpid, hred, hb, hitems,
              apiInfoBody, List.lookup]
    · intro hb hapi
      cases api with
      | error e => simp [playlistInfoP0, truthyStrOpt, hpid, hred, hb]
      | ok r =>
        cases hitems : r.items with
        | none => simp [playlistInfoP0, truthyStrOpt, hpid, hred, hb, hitems]
        | some l =>
          cases l with
          | nil => simp [playlistInfoP0, truthyStrOpt, hpid, hred, hb, hitems]
          | cons item rest => simp [apiHasItems, hitems] at hapi

theorem playlist_info_extractor_first_fallback_witness :
    (playlistInfoP0 (some "PL1") (some "Bearer tok") (Except.error "boom")
        (Except.ok ⟨some [⟨"T", none, none, none, 3⟩]⟩)).status = 200
  ∧ (playlistInfoP0 (some "PL1") (some "Bearer tok") (Except.error "boom")
        (Except.ok ⟨some [⟨"T", none, none, none, 3⟩]⟩)).body.lookup "source"
      = some (.str "youtube-api")
  ∧ playlistInfoP0 (some "PL1") none (Except.error "boom")
        (Except.ok ⟨some [⟨"T", none, none, none, 3⟩]⟩)
      = serverError "Failed to fetch playlist info" (.ext "boom") false := by
  have h1 := playlist_info_extractor_first_fallback "PL1" (by decide)
    (some "Bearer tok") (Except.error "boom")
    (Except.ok ⟨some [⟨"T", none, none, none, 3⟩]⟩)
  have h2 := playlist_info_extractor_first_fallback "PL1" (by decide)
    none (Except.error "boom")
    (Except.ok ⟨some [⟨"T", none, none, none, 3⟩]⟩)
  have hcase := (h1.2 "boom" rfl).2.1 (by rfl) (by rfl)
  exact ⟨hcase.1, hcase.2, (h2.2 "boom" rfl).1 (by rfl)⟩

/-! ### The user-playlists authentication gate -/

/-- C8: every /api/user-playlists request whose Authorization header is
missing or not `Bearer `-prefixed is answered 401 with an `error` field and
without any outbound API call; and when the forwarded token is rejected by
the API with code 401 (invalid or expired), the reply is again 401 with an
`error` field. -/
theorem user_playlists_auth_401 (api : Except UserApiErr (List GUserPlaylist)) :
    (userPlaylistsP0 none api =
      { status := 401, body := [("error", .str "Authorization token required")],
        extractorCalled := false, apiCalled := false })
  ∧ (∀ s, strStartsWith s "Bearer " = false →
      userPlaylistsP0 (some s) api =
        { status := 401, body := [("error", .str "Authorization token required")],
          extractorCalled := false, apiCalled := false })
  ∧ (∀ ah e, hasBearer ah = true → api = .error e → e.code = some 401 →
      (userPlaylistsP0 ah api).status = 401 ∧
      ((userPlaylistsP0 ah api).body.lookup "error").isSome = true) := by
  refine ⟨rfl, ?_, ?_⟩
  · intro s hs
    simp [userPlaylistsP0, hasBearer, hs]
  · intro ah e hb he h401
    subst he
    simp [userPlaylistsP0, hb, h401, List.lookup]

theorem user_playlists_auth_401_witness :
    userPlaylistsP0 none (Except.ok []) =
      { status := 401, body := [("error", .str "Authorization token required")],
        extractorCalled := false, apiCalled := false }
  ∧ (userPlaylistsP0 (some "Bearer x") (Except.error ⟨some 401, "expired"⟩)).status = 401 := by
  have h1 := user_playlists_auth_401 (Except.ok [])
  have h2 := user_playlists_auth_401 (Except.error ⟨some 401, "expired"⟩)
  exact ⟨h1.1, (h2.2.2 (some "Bearer x") ⟨some 401, "expired"⟩ (by rfl) rfl (by rfl)).1⟩

/-! ### Missing-parameter validation -/

/-- C5 counterexample: a request with no `playlistId` is answered 400, but
the body is `{error}` only — the `message` field of the documented
`{error, message}` envelope is absent from these 400 responses. -/
theorem missing_param_envelope_cex :
    (playlistInfoSrv none (Except.error "x")).status = 400
  ∧ ((playlistInfoSrv none (Except.error "x")).body.lookup "error").isSome = true
  ∧ (playlistInfoSrv none (Except.error "x")).body.lookup "message" = none :=
  ⟨rfl, rfl, rfl⟩

/-- C5 amended: every request to the four extractor endpoints lacking its
required `playlistId`/`videoId` is answered 400 without invoking the
extractor, with a body containing the `error` field (and no `message`
field). -/
theorem missing_param_400 (ext1 ext2 ext3 ext4 : Except String MetaIn)
    (events : List StreamEv) :
    ((playlistInfoSrv none ext1).status = 400
      ∧ (playlistInfoSrv none ext1).extractorCalled = false
      ∧ ((playlistInfoSrv none ext1).body.lookup "error").isSome = true
      ∧ (playlistInfoSrv none ext1).body.lookup "message" = none)
  ∧ ((playlistVideosSrv none ext2).status = 400
      ∧ (playlistVideosSrv none ext2).extractorCalled = false
      ∧ ((playlistVideosSrv none ext2).body.lookup "error").isSome = true
      ∧ (playlistVideosSrv none ext2).body.lookup "message" = none)
  ∧ ((downloadInfoSrv none ext3).status = 400
      ∧ (downloadInfoSrv none ext3).extractorCalled = false
      ∧ ((downloadInfoSrv none ext3).body.lookup "error").isSome = true
      ∧ (downloadInfoSrv none ext3).body.lookup "message" = none)
  ∧ downloadSrv none ext4 events =
      [.respond 400 [("error", .str "videoId parameter is required")]] :=
  ⟨⟨rfl, rfl, rfl, rfl⟩, ⟨rfl, rfl, rfl, rfl⟩, ⟨rfl, rfl, rfl, rfl⟩, rfl⟩

/-! ### Array-shape classification -/

theorem truthy_of_isTypeTag (v : JVal) (tag : String) (h : isTypeTag v tag = true) :
    truthy v = true := by
  cases v <;> simp_all [isTypeTag, JVal.getField, truthy]

theorem findPlaylistDoc_eq_find (xs : List JVal) (h : JVal.null ∉ xs) :
    findPlaylistDoc xs = .ok (xs.find? (fun v => isTypeTag v "playlist")) := by
  induction xs with
  | nil => rfl
  | cons v rest ih =>
    have hv : v ≠ JVal.null := fun hveq => h (hveq ▸ List.mem_cons_self v rest)
    have hrest := ih (fun hr => h (List.mem_cons_of_mem v hr))
    cases v with
    | null => exact absurd rfl hv
    | bool b => exact hrest
    | num n => exact hrest
    | str s => exact hrest
    | arr ys => exact hrest
    | obj fs =>
      show (if isTypeTag (JVal.obj fs) "playlist" then
              Except.ok (some (JVal.obj fs)) else findPlaylistDoc rest) = _
      by_cases hp : isTypeTag (JVal.obj fs) "playlist" = true
      · simp [List.find?_cons, hp]
      · have hp2 : isTypeTag (JVal.obj fs) "playlist" = false := by simpa using hp
        simp [List.find?_cons, hp2, hrest]

theorem filterTypedEntries_eq_filter (xs : List JVal) (h : JVal.null ∉ xs) :
    filterTypedEntries xs =
      .ok (xs.filter (fun v => isTypeTag v "url" || isTypeTag v "video")) := by
  induction xs with
  | nil => rfl
  | cons v rest ih =>
    have hv : v ≠ JVal.null := fun hveq => h (hveq ▸ List.mem_cons_self v rest)
    have hrest := ih (fun hr => h (List.mem_cons_of_mem v hr))
    have hstep : filterTypedEntries (v :: rest) =
        (filterTypedEntries rest) >>= (fun es =>
          Except.ok (if isTypeTag v "url" || isTypeTag v "video" then v :: es else es)) := by
      cases v with
      | null => exact absurd rfl hv
      | bool b => rfl
      | num n => rfl
      | str s => rfl
      | arr ys => rfl
      | obj fs => rfl
    rw [hstep, hrest, ebind_ok, List.filter_cons]

/-- C6: for an array-shaped playlist payload (of non-null entry objects),
the classification recovers the playlist-level document as the element whose
`_type` is `'playlist'`, falling back to the last element when none exists,
and the item list as exactly the elements whose `_type` is `'url'` or
`'video'`; for every non-array payload the item list is the payload's
`entries` field, empty when absent or falsy. -/
theorem heterogeneous_payload_classification :
    (∀ xs : List JVal, JVal.null ∉ xs →
       classifyPayload (.arr xs) =
         .ok ((xs.find? (fun v => isTypeTag v "playlist")).or xs.getLast?,
              .arr (xs.filter (fun v => isTypeTag v "url" || isTypeTag v "video"))))
  ∧ (∀ raw : JVal, raw.isArr = false → raw ≠ .null →
       classifyPayload raw = .ok (some raw, jsOrV (raw.getField "entries") (.arr []))) := by
  constructor
  · intro xs h
    show (findPlaylistDoc xs >>= fun doc => filterTypedEntries xs >>= fun es =>
      Except.ok (jsOr doc xs.getLast?, JVal.arr es)) = _
    rw [findPlaylistDoc_eq_find xs h, ebind_ok, filterTypedEntries_eq_filter xs h, ebind_ok]
    cases hf : xs.find? (fun v => isTypeTag v "playlist") with
    | none => rfl
    | some d =>
      have hd : isTypeTag d "playlist" = true := by simpa using List.find?_some hf
      simp [jsOr, truthy_of_isTypeTag d "playlist" hd, Option.or]
  · intro raw harr hnull
    cases raw with
    | null => exact absurd rfl hnull
    | arr ys => simp [JVal.isArr] at harr
    | bool b => rfl
    | num n => rfl
    | str s => rfl
    | obj fs => rfl

theorem heterogeneous_payload_classification_witness :
    classifyPayload (.arr [.obj [("_type", .str "url"), ("id", .str "a")],
                           .obj [("_type", .str "playlist"), ("title", .str "P")]]) =
      .ok (some (.obj [("_type", .str "playlist"), ("title", .str "P")]),
           .arr [.obj [("_type", .str "url"), ("id", .str "a")]])
  ∧ classifyPayload (.obj [("title", .str "T")]) =
      .ok (some (.obj [("title", .str "T")]), .arr []) := by
  have h := heterogeneous_payload_classification
  have h1 := h.1 [.obj [("_type", .str "url"), ("id", .str "a")],
                  .obj [("_type", .str "playlist"), ("title", .str "P")]] (by simp)
  have h2 := h.2 (.obj [("title", .str "T")]) rfl (by simp)
  exact ⟨h1.trans (by rfl), h2.trans (by rfl)⟩

/-! ### The videos list of /api/playlist-videos -/

theorem mapEntry_ok_shape (v : JVal) (w : Option JVal) (h : mapEntry v = .ok w) :
    w = none ∨ ∃ fs, w = some (JVal.obj fs) := by
  unfold mapEntry at h
  by_cases ht : truthy v = true
  · rw [if_pos ht] at h
    cases htf : entryThumbField v with
    | error e => rw [htf, ebind_err] at h; cases h
    | ok tf =>
      rw [htf, ebind_ok] at h
      cases h
      exact Or.inr ⟨_, rfl⟩
  · rw [if_neg ht] at h
    cases h
    exact Or.inl rfl

theorem no_null_in_filterNonNull (l : List JVal) (res : List (Option JVal))
    (h : mapEntries l = .ok res) : JVal.null ∉ filterNonNull res := by
  induction l generalizing res with
  | nil =>
    cases h
    simp [filterNonNull]
  | cons v rest ih =>
    unfold mapEntries at h
    cases he : mapEntry v with
    | error e => rw [he, ebind_err] at h; cases h
    | ok w =>
      rw [he, ebind_ok] at h
      cases hes : mapEntries rest with
      | error e => rw [hes, ebind_err] at h; cases h
      | ok ws =>
        rw [hes, ebind_ok] at h
        cases h
        rcases mapEntry_ok_shape v w he with hw | ⟨fs, hw⟩ <;> subst hw <;>
          simp [filterNonNull, List.filterMap_cons] <;>
          simpa [filterNonNull] using ih ws hes

/-- C10: every successful /api/playlist-videos response (server.js and
part_000 variants) carries a `videos` array with no null entries — null
extractor entries are filtered out — and an `itemCount` equal to the length
of that array, the count of successfully mapped entries. -/
theorem playlist_videos_no_null_itemCount (pid : String) (m : MetaIn) :
    (∀ hout, playlistVideosCoreSrv pid m = .ok hout →
       ∃ vs : List JVal, hout.body.lookup "videos" = some (.arr vs)
         ∧ JVal.null ∉ vs
         ∧ hout.body.lookup "itemCount" = some (.num vs.length))
  ∧ (∀ hout, playlistVideosCoreP0 pid m = .ok hout →
       ∃ vs : List JVal, hout.body.lookup "videos" = some (.arr vs)
         ∧ JVal.null ∉ vs
         ∧ hout.body.lookup "itemCount" = some (.num vs.length)) := by
  constructor
  · intro hout hok
    unfold playlistVideosCoreSrv at hok
    cases hpm : parseMeta m with
    | error e => rw [hpm, ebind_err] at hok; cases hok
    | ok pd =>
      rw [hpm, ebind_ok] at hok
      cases hef : getFieldE pd "entries" with
      | error e => rw [hef, ebind_err] at hok; cases hok
      | ok ef =>
        rw [hef, ebind_ok] at hok
        cases hae : asArrayE (jsOrV ef (.arr [])) with
        | error e => rw [hae, ebind_err] at hok; cases hok
        | ok entries =>
          rw [hae, ebind_ok] at hok
          cases hme : mapEntries entries with
          | error e => rw [hme, ebind_err] at hok; cases hok
          | ok mapped =>
            rw [hme, ebind_ok] at hok
            cases hti : getFieldE pd "title" with
            | error e => rw [hti, ebind_err] at hok; cases hok
            | ok titleF =>
              rw [hti, ebind_ok] at hok
              cases hok
              exact ⟨filterNonNull mapped, by simp [List.lookup],
                no_null_in_filterNonNull entries mapped hme, by simp [List.lookup]⟩
  · intro hout hok
    unfold playlistVideosCoreP0 at hok
    cases hpm : parseMeta m with
    | error e => rw [hpm, ebind_err] at hok; cases hok
    | ok raw =>
      rw [hpm, ebind_ok] at hok
      cases hcl : classifyPayload raw with
      | error e => rw [hcl, ebind_err] at hok; cases hok
      | ok pr =>
        rw [hcl, ebind_ok] at hok
        obtain ⟨pd, ev⟩ := pr
        dsimp only at hok
        cases hae : asArrayE ev with
        | error e => rw [hae, ebind_err] at hok; cases hok
        | ok entries =>
          rw [hae, ebind_ok] at hok
          cases hme : mapEntries entries with
          | error e => rw [hme, ebind_err] at hok; cases hok
          | ok mapped =>
            rw [hme, ebind_ok] at hok
            cases hti : accessFieldE pd "title" with
            | error e => rw [hti, ebind_err] at hok; cases hok
            | ok titleF =>
              rw [hti, ebind_ok] at hok
              cases hok
              exact ⟨filterNonNull mapped, by simp [List.lookup],
                no_null_in_filterNonNull entries mapped hme, by simp [List.lookup]⟩

theorem playlist_videos_no_null_itemCount_witness :
    ∃ hout vs, playlistVideosCoreSrv "PL"
        (.parsed (.obj [("entries", .arr [.null, .obj [("title", .str "t")]]),
                        ("playlist_count", .num 7)])) = .ok hout
      ∧ hout.body.lookup "videos" = some (.arr vs)
      ∧ JVal.null ∉ vs
      ∧ hout.body.lookup "itemCount" = some (.num vs.length) := by
  obtain ⟨vs, h1, h2, h3⟩ := (playlist_videos_no_null_itemCount "PL"
    (.parsed (.obj [("entries", .arr [.null, .obj [("title", .str "t")]]),
                    ("playlist_count", .num 7)]))).1 _ rfl
  exact ⟨_, vs, rfl, h1, h2, h3⟩

/-! ### Optional-field defaults -/

/-- C2 counterexample: when the extractor omits `title`, the successful
/api/download-info response has no `title` field at all (no default is
substituted); and a playlist entry without `id` is mapped to a video object
with no `id` field — both contradict the every-optional-field-defaulted
invariant. -/
theorem optional_defaults_cex :
    (downloadInfoSrv (some "vid1") (Except.ok (.parsed (.obj [])))).status = 200
  ∧ (downloadInfoSrv (some "vid1") (Except.ok (.parsed (.obj [])))).body.lookup "title"
      = none
  ∧ (playlistVideosSrv (some "PLx")
      (Except.ok (.parsed (.obj [("entries", .arr [.obj [("title", .str "t")]])])))).body.lookup "videos"
      = some (.arr [.obj [("title", .str "t"), ("author", .str "Unknown"),
                          ("duration", .num 0), ("thumbnailUrl", .str "")]]) :=
  ⟨rfl, rfl, rfl⟩

/-- C2 amended: on success, the optional fields that have coded defaults
(`author`, `lengthSeconds`/`duration`, `quality`, `format`,
`title`/`thumbnailUrl` of playlist entries) are always present; but the
/api/download-info `title` and each playlist-videos entry's `id` are passed
through from the extractor unchanged and are absent from the response when
the extractor omits them. -/
theorem optional_defaults_amended (vid : String) (m : MetaIn) (info : JVal) (hout : HOut)
    (hp : parseMeta m = .ok info) (hok : downloadInfoCore vid m = .ok hout) :
    ((hout.body.lookup "author").isSome = true
      ∧ (hout.body.lookup "lengthSeconds").isSome = true
      ∧ (hout.body.lookup "quality").isSome = true
      ∧ (hout.body.lookup "format").isSome = true
      ∧ hout.body.lookup "title" = info.getField "title")
  ∧ (∀ v fs, mapEntry v = .ok (some (.obj fs)) →
       ((fs.lookup "title").isSome = true
        ∧ (fs.lookup "author").isSome = true
        ∧ (fs.lookup "duration").isSome = true
        ∧ (fs.lookup "thumbnailUrl").isSome = true
        ∧ fs.lookup "id" = v.getField "id")) := by
  constructor
  · unfold downloadInfoCore at hok
    rw [hp] at hok
    by_cases hnull : info = JVal.null
    · subst hnull
      simp [getFieldE, ebind_ok, ebind_err] at hok
    · simp only [getFieldE_ok info hnull, ebind_ok] at hok
      cases hok
      cases hti : info.getField "title" <;>
        simp [mkJson, List.lookup, hti]
  · intro v fs hme
    unfold mapEntry at hme
    by_cases ht : truthy v = true
    · rw [if_pos ht] at hme
      cases htf : entryThumbField v with
      | error e => rw [htf, ebind_err] at hme; cases hme
      | ok tf =>
        rw [htf, ebind_ok] at hme
        cases hme
        cases hid : v.getField "id" <;>
          simp [mkJson, List.lookup, hid]
    · rw [if_neg ht] at hme
      cases hme

theorem optional_defaults_amended_witness :
    ∃ hout, downloadInfoCore "w1" (.parsed (.obj [("title", .str "X")])) = .ok hout
      ∧ (hout.body.lookup "author").isSome = true
      ∧ hout.body.lookup "title" = some (.str "X")
      ∧ ∃ fs, mapEntry (.obj [("id", .str "i1")]) = .ok (some (.obj fs))
          ∧ fs.lookup "id" = some (.str "i1") := by
  have h := optional_defaults_amended "w1" (.parsed (.obj [("title", .str "X")]))
    (.obj [("title", .str "X")]) _ rfl rfl
  refine ⟨_, rfl, h.1.1, h.1.2.2.2.2.trans (by rfl), ?_⟩
  have h2 := h.2 (.obj [("id", .str "i1")]) _ rfl
  exact ⟨_, rfl, h2.2.2.2.2.trans (by rfl)⟩

/-! ### The download-info summary -/

/-- C7 counterexample: a successful /api/download-info response need not
have a non-empty title nor a nonnegative `lengthSeconds` — both are passed
through from the extractor payload: an empty extractor title yields an empty
response title, and a negative extractor duration yields a negative
`lengthSeconds`. -/
theorem download_info_title_cex :
    (downloadInfoSrv (some "abc123") (Except.ok (.parsed (.obj [("title", .str "")])))).status = 200
  ∧ (downloadInfoSrv (some "abc123")
        (Except.ok (.parsed (.obj [("title", .str "")])))).body.lookup "title"
      = some (.str "")
  ∧ (downloadInfoSrv (some "abc123")
        (Except.ok (.parsed (.obj [("duration", .num (-5))])))).body.lookup "lengthSeconds"
      = some (.num (-5))
  ∧ (-5 : Int) < 0 :=
  ⟨rfl, rfl, rfl, by decide⟩

/-- C7 amended: every successful /api/download-info response carries
`downloadUrl` equal to the canonical watch URL itself, `quality` `"best"`
and `format` `"audio/mp4"`; its `title` is the extractor's title verbatim
and `lengthSeconds` is the extractor's `duration` when truthy and `0`
otherwise — in particular equal to any nonnegative extractor-reported
duration. -/
theorem download_info_fields_amended (vid : String) (m : MetaIn) (info : JVal) (hout : HOut)
    (hp : parseMeta m = .ok info) (hok : downloadInfoCore vid m = .ok hout) :
    hout.status = 200
  ∧ hout.body.lookup "downloadUrl" = some (.str (watchUrl vid))
  ∧ hout.body.lookup "quality" = some (.str "best")
  ∧ hout.body.lookup "format" = some (.str "audio/mp4")
  ∧ hout.body.lookup "title" = info.getField "title"
  ∧ hout.body.lookup "lengthSeconds" = some (jsOrV (info.getField "duration") (.num 0))
  ∧ (∀ n : Int, info.getField "duration" = some (.num n) → 0 ≤ n →
       hout.body.lookup "lengthSeconds" = some (.num n)) := by
  unfold downloadInfoCore at hok
  rw [hp] at hok
  by_cases hnull : info = JVal.null
  · subst hnull
    simp [getFieldE, ebind_ok, ebind_err] at hok
  · simp only [getFieldE_ok info hnull, ebind_ok] at hok
    cases hok
    refine ⟨rfl, ?_, ?_, ?_, ?_, ?_, ?_⟩
    · cases hti : info.getField "title" <;> simp [mkJson, List.lookup, hti]
    · cases hti : info.getField "title" <;> simp [mkJson, List.lookup, hti]
    · cases hti : info.getField "title" <;> simp [mkJson, List.lookup, hti]
    · cases hti : info.getField "title" <;> simp [mkJson, List.lookup, hti]
    · cases hti : info.getField "title" <;> simp [mkJson, List.lookup, hti]
    · intro n hd hn
      by_cases hn0 : n = 0
      · subst hn0
        cases hti : info.getField "title" <;>
          simp [mkJson, List.lookup, hti, hd, jsOrV, truthy]
      · cases hti : info.getField "title" <;>
          simp [mkJson, List.lookup, hti, hd, jsOrV, truthy, hn0]

theorem download_info_fields_amended_witness :
    ∃ hout, downloadInfoCore "abc123"
        (.parsed (.obj [("title", .str "Song"), ("duration", .num 212)])) = .ok hout
      ∧ hout.status = 200
      ∧ hout.body.lookup "downloadUrl" = some (.str "https://www.youtube.com/watch?v=abc123")
      ∧ hout.body.lookup "quality" = some (.str "best")
      ∧ hout.body.lookup "format" = some (.str "audio/mp4")
      ∧ hout.body.lookup "title" = some (.str "Song")
      ∧ hout.body.lookup "lengthSeconds" = some (.num 212) := by
  have h := download_info_fields_amended "abc123"
    (.parsed (.obj [("title", .str "Song"), ("duration", .num 212)]))
    (.obj [("title", .str "Song"), ("duration", .num 212)]) _ rfl rfl
  exact ⟨_, rfl, h.1, h.2.1.trans (by rfl), h.2.2.1, h.2.2.2.1,
    h.2.2.2.2.1.trans (by rfl), h.2.2.2.2.2.2 212 rfl (by decide)⟩

/-! ### Metadata parse strategy -/

/-- A newline-delimited payload, one JSON object per line. -/
def ndjsonPayload : String :=
  "\x7b\"id\":\"a\",\"title\":\"A\"\x7d\n\x7b\"id\":\"b\",\"title\":\"B\"\x7d"

/-- C3 counterexample: when the extractor emits one JSON object per line,
the server.js /api/playlist-videos handler does not fall back to per-line
parsing: the whole-payload `JSON.parse` throws and the request fails with
500 and no `videos` list at all. -/
theorem ndjson_whole_parse_cex :
    jsonParse ndjsonPayload = none
  ∧ (playlistVideosSrv (some "PLn") (Except.ok (.raw ndjsonPayload))).status = 500
  ∧ (playlistVideosSrv (some "PLn")
        (Except.ok (.raw ndjsonPayload))).body.lookup "videos" = none :=
  ⟨rfl, rfl, rfl⟩

/-- C3 amended: no variant implements the two-stage parse.  The server.js
handler attempts only a whole-payload `JSON.parse` and fails the request
with 500 whenever that parse fails (newline-delimited output included); the
part_002 variant parses only newline-by-newline — dropping the first
nonblank line — and returns exactly the entries of the parsable remaining
lines, skipping every unparsable line instead of failing the request. -/
theorem filterNonNull_map (f : String → Option JVal) (l : List String) :
    filterNonNull (l.map f) = l.filterMap f := by
  induction l with
  | nil => rfl
  | cons a t ih =>
    cases hf : f a <;> simp [filterNonNull, List.filterMap_cons, hf]

theorem ndjson_parse_amended (pid : String) (hpid : pid ≠ "") (s : String) :
    (jsonParse s = none →
       playlistVideosSrv (some pid) (Except.ok (.raw s)) =
         serverError "Failed to fetch playlist videos" .syntaxErr false)
  ∧ ((playlistVideosP2 (some pid) (Except.ok s)).status = 200
      ∧ (playlistVideosP2 (some pid) (Except.ok s)).body.lookup "videos" =
          some (.arr (((nonBlankLines s).drop 1).filterMap p2LineVideo)))
  ∧ (∀ line, jsonParse line = none → p2LineVideo line = none) := by
  refine ⟨?_, ⟨?_, ?_⟩, ?_⟩
  · intro hparse
    have hcore : playlistVideosCoreSrv pid (.raw s) = .error .syntaxErr := by
      unfold playlistVideosCoreSrv
      simp [parseMeta, hparse, ebind_err]
    simp [playlistVideosSrv, truthyStrOpt, hpid, extractOk, ebind_ok, hcore]
  · simp [playlistVideosP2, truthyStrOpt, hpid]
  · rw [show (playlistVideosP2 (some pid) (Except.ok s)).body.lookup "videos"
        = some (.arr (filterNonNull (((nonBlankLines s).drop 1).map p2LineVideo))) by
      simp [playlistVideosP2, truthyStrOpt, hpid, List.lookup, ← List.map_tail]]
    rw [show ((nonBlankLines s).drop 1).map p2LineVideo
        = ((nonBlankLines s).drop 1).map p2LineVideo from rfl, filterNonNull_map]
  · intro line hline
    simp [p2LineVideo, hline]

theorem ndjson_parse_amended_witness :
    playlistVideosSrv (some "PLn2") (Except.ok (.raw "\x7b\"a\":1\x7d\n\x7b\"b\":2\x7d")) =
      serverError "Failed to fetch playlist videos" .syntaxErr false
  ∧ (playlistVideosP2 (some "PLn2")
        (Except.ok "\x7b\"id\":\"h\"\x7d\n\x7b\"id\":\"a\"\x7d\nbad line\n\x7b\"id\":\"b\"\x7d")).body.lookup "videos" =
      some (.arr [.obj [("id", .str "a"), ("title", .str "Unknown"),
                        ("author", .str "Unknown"), ("duration", .num 0),
                        ("thumbnailUrl", .str "")],
                  .obj [("id", .str "b"), ("title", .str "Unknown"),
                        ("author", .str "Unknown"), ("duration", .num 0),
                        ("thumbnailUrl", .str "")]]) := by
  have h1 := ndjson_parse_amended "PLn2" (by decide) "\x7b\"a\":1\x7d\n\x7b\"b\":2\x7d"
  have h2 := ndjson_parse_amended "PLn2" (by decide)
    "\x7b\"id\":\"h\"\x7d\n\x7b\"id\":\"a\"\x7d\nbad line\n\x7b\"id\":\"b\"\x7d"
  exact ⟨h1.1 rfl, h2.2.1.2.trans (by rfl)⟩

end YTMusic
